import Mathlib

/-!
Verification development for the special-image abstraction declared in
`src/core/SkSpecialImage.h` (class `SkSpecialImage` and the factory and
interop functions in namespace `SkSpecialImages`).

The header carries the complete bodies of the accessors (`width`, `height`,
`dimensions`, `subset`), of the non-virtual `makeSubset`, and of the
three-argument `draw` convenience overload; those are embedded directly from
the source.  The remaining operations (`draw` with explicit sampling,
`asShader`, `asShaderFast`, `onAsShader`, `asImage`, the raster variant's
`onMakeSubset`, and the `SkSpecialImages` factory functions) are only
declared in the header; their behavior is modelled from the specification,
and each such definition says so in its doc comment.

Conventions of this shallow embedding:
  * `SkScalar` coordinates are embedded as `Int` (exact translation offsets),
    pixel values as `Nat`.
  * A backing store (CPU pixel buffer or GPU texture region) is a pixel
    bounds rectangle together with a total pixel function and a flag telling
    whether the store is CPU-readable.
  * Reference-counted `sk_sp` handles are embedded by value; a construction
    that can return a null handle returns an `Option`.
-/

/-- Integer rectangle, embedded from `SkIRect` (fields `fLeft`, `fTop`,
`fRight`, `fBottom`; half-open in both axes). -/
structure SkIRect where
  fLeft : Int
  fTop : Int
  fRight : Int
  fBottom : Int
deriving DecidableEq, Repr

/-- Integer point, embedded from `SkIPoint`. -/
structure SkIPoint where
  fX : Int
  fY : Int
deriving DecidableEq, Repr

/-- Integer size, embedded from `SkISize`. -/
structure SkISize where
  fWidth : Int
  fHeight : Int
deriving DecidableEq, Repr

namespace SkIRect

/-- `SkIRect::width()` : `fRight - fLeft`. -/
def width (r : SkIRect) : Int := r.fRight - r.fLeft

/-- `SkIRect::height()` : `fBottom - fTop`. -/
def height (r : SkIRect) : Int := r.fBottom - r.fTop

/-- `SkIRect::topLeft()` : the point `{fLeft, fTop}`. -/
def topLeft (r : SkIRect) : SkIPoint := ⟨r.fLeft, r.fTop⟩

/-- `SkIRect::makeOffset(SkIPoint)` : translate all four edges. -/
def makeOffset (r : SkIRect) (p : SkIPoint) : SkIRect :=
  ⟨r.fLeft + p.fX, r.fTop + p.fY, r.fRight + p.fX, r.fBottom + p.fY⟩

/-- `SkIRect::isEmpty()` : true when the rectangle encloses no pixel. -/
def isEmpty (r : SkIRect) : Bool := r.fRight ≤ r.fLeft || r.fBottom ≤ r.fTop

/-- `SkIRect::contains(int32_t x, int32_t y)` : point membership. -/
def containsPoint (r : SkIRect) (x y : Int) : Bool :=
  r.fLeft ≤ x && x < r.fRight && r.fTop ≤ y && y < r.fBottom

/-- `SkIRect::contains(const SkIRect&)` : `r` encloses every pixel of
`inner`, both rectangles non-empty. -/
def containsRect (r inner : SkIRect) : Bool :=
  !inner.isEmpty && !r.isEmpty &&
    r.fLeft ≤ inner.fLeft && r.fTop ≤ inner.fTop &&
    inner.fRight ≤ r.fRight && inner.fBottom ≤ r.fBottom

/-- `SkIRect::MakeWH(w, h)` : the rectangle `{0, 0, w, h}`. -/
def makeWH (w h : Int) : SkIRect := ⟨0, 0, w, h⟩

end SkIRect

/-- Color descriptor, embedded from `SkColorInfo` (color type and alpha
type as enumeration codes, optional color space). -/
structure SkColorInfo where
  colorType : Nat
  alphaType : Nat
  colorSpace : Option Nat
deriving DecidableEq, Repr

/-- Surface properties, embedded from `SkSurfaceProps`. -/
structure SkSurfaceProps where
  flags : Nat
  pixelGeometry : Nat
deriving DecidableEq, Repr

/-- Sampling options, embedded from `SkSamplingOptions`: this model keeps
the filtering choice, which determines the sampling footprint used by
`draw`.  `filterLinear = false` is the default-constructed state
(`SkSamplingOptions()`, nearest-neighbor). -/
structure SkSamplingOptions where
  filterLinear : Bool
deriving DecidableEq, Repr

/-- `SkSamplingOptions()` — default construction: nearest-neighbor
sampling. -/
def defaultSampling : SkSamplingOptions := ⟨false⟩

/-- Tile mode, embedded from `enum class SkTileMode`. -/
inductive SkTileMode where
  | clamp
  | repeated
  | mirror
  | decal
deriving DecidableEq, Repr

/-- Paint, embedded from `SkPaint` as far as drawing a special image
consumes it: a per-pixel color modulation (color filter / blend against
the paint color). -/
structure SkPaint where
  modulate : Nat → Nat

/-- Local matrix, embedded from `SkMatrix` restricted to exact integer
affine maps (the shallow embedding keeps coordinates integral). -/
structure SkMatrix where
  scaleX : Int
  skewX : Int
  transX : Int
  skewY : Int
  scaleY : Int
  transY : Int

/-- Apply an `SkMatrix` to a point. -/
def SkMatrix.mapX (m : SkMatrix) (x y : Int) : Int :=
  m.scaleX * x + m.skewX * y + m.transX

/-- Apply an `SkMatrix` to a point. -/
def SkMatrix.mapY (m : SkMatrix) (x y : Int) : Int :=
  m.skewY * x + m.scaleY * y + m.transY

/-- Canvas, embedded from `SkCanvas` as far as `SkSpecialImage::draw`
observes it: the device pixel grid that drawing updates. -/
structure SkCanvas where
  pixels : Int → Int → Nat

/-- General-purpose image handle, embedded from `SkImage`: pixel bounds
starting at the origin, a pixel function, and whether the handle carries
valid, materialized raster pixels. -/
structure SkImage where
  imgWidth : Int
  imgHeight : Int
  pixelAt : Int → Int → Nat
  validPixels : Bool

/-- `SkImage::bounds()` : `{0, 0, width, height}`. -/
def SkImage.bounds (im : SkImage) : SkIRect := SkIRect.makeWH im.imgWidth im.imgHeight

/-- Pixel map / bitmap over a caller-owned CPU buffer, embedded from
`SkBitmap` / `SkPixmap`: pixel bounds, pixel function, and whether the
pixel configuration is valid (non-null, supported color type). -/
structure SkBitmap where
  bounds : SkIRect
  pixels : Int → Int → Nat
  validConfig : Bool

/-- Backing store of a special image: the physical pixel storage (CPU
buffer or GPU texture region).  `readable` tells whether a CPU pixel view
can be extracted from it (raster: always; a GPU texture: only when its
format supports readback). -/
structure BackingStore where
  bounds : SkIRect
  pixels : Int → Int → Nat
  readable : Bool

/-- Special image, embedded from `SkSpecialImage`: the `const` fields
`fSubset`, `fUniqueID`, `fColorInfo`, `fProps` of the class plus the
variant's backing payload. -/
structure SkSpecialImage where
  fSubset : SkIRect
  fUniqueID : Nat
  fColorInfo : SkColorInfo
  fProps : SkSurfaceProps
  backing : BackingStore

namespace SkSpecialImage

/-- `SkSpecialImage::width()` : `fSubset.width()`. -/
def width (img : SkSpecialImage) : Int := img.fSubset.width

/-- `SkSpecialImage::height()` : `fSubset.height()`. -/
def height (img : SkSpecialImage) : Int := img.fSubset.height

/-- `SkSpecialImage::dimensions()` : `{ width(), height() }`. -/
def dimensions (img : SkSpecialImage) : SkISize := ⟨img.width, img.height⟩

/-- `SkSpecialImage::subset()` : the stored `fSubset`. -/
def subset (img : SkSpecialImage) : SkIRect := img.fSubset

/-- `SkSpecialImage::props()` : the stored `fProps`. -/
def props (img : SkSpecialImage) : SkSurfaceProps := img.fProps

/-- `SkSpecialImage::uniqueID()` : the stored `fUniqueID`. -/
def uniqueID (img : SkSpecialImage) : Nat := img.fUniqueID

/-- `SkSpecialImage::colorInfo()` : the stored `fColorInfo`. -/
def colorInfo (img : SkSpecialImage) : SkColorInfo := img.fColorInfo

/-- Modelled from the spec: the raster variant's `onMakeSubset`
implementation is not under `src/` (only its pure-virtual declaration is).
Per §4.1/§4.2 it constructs a new concrete instance sharing the backing
storage, whose stored subset is the given rectangle, already expressed in
the backing store's absolute coordinate frame; a fresh identity is
requested via the sentinel `kNeedNewImageUniqueID_SpecialImage = 0`. -/
def onMakeSubset (img : SkSpecialImage) (absolute : SkIRect) : SkSpecialImage :=
  { img with fSubset := absolute, fUniqueID := 0 }

/-- `SkSpecialImage::makeSubset(const SkIRect& subset)`, embedded from the
header's inline body:
`SkIRect absolute = subset.makeOffset(this->subset().topLeft());`
`return this->onMakeSubset(absolute);`. -/
def makeSubset (img : SkSpecialImage) (r : SkIRect) : SkSpecialImage :=
  img.onMakeSubset (r.makeOffset img.subset.topLeft)

/-- Modelled from the spec: `asImage()` is a pure-virtual whose raster
implementation is not under `src/`.  Per §4.2 it returns a zero-copy view
of the backing buffer cropped to the subset, so local coordinate `(x, y)`
of the view reads backing pixel `(x + fSubset.fLeft, y + fSubset.fTop)`. -/
def asImage (img : SkSpecialImage) : SkImage :=
  { imgWidth := img.width
  , imgHeight := img.height
  , pixelAt := fun x y => img.backing.pixels (x + img.fSubset.fLeft) (y + img.fSubset.fTop)
  , validPixels := img.backing.readable }

end SkSpecialImage

/-- Clamp `v` into the inclusive range `[lo, hi]`. -/
def clampI (v lo hi : Int) : Int := if v < lo then lo else if hi < v then hi else v

/-- Resolve one coordinate of a sample position through a tile mode over
the half-open range `[0, n)` (the local bounds of an image view of width
or height `n`).  Decal is handled separately by its caller, which
substitutes transparent black for out-of-range samples. -/
def tileCoord (tm : SkTileMode) (v n : Int) : Int :=
  match tm with
  | SkTileMode.clamp => clampI v 0 (n - 1)
  | SkTileMode.repeated => v % n
  | SkTileMode.mirror =>
      let m := v % (2 * n)
      if m < n then m else 2 * n - 1 - m
  | SkTileMode.decal => v

namespace SkSpecialImage

/-- Sampling footprint: the backing-relative tap offsets a filtered read
touches.  Nearest-neighbor reads one texel; linear filtering reads the
2×2 neighborhood. -/
def taps (sampling : SkSamplingOptions) : List (Int × Int) :=
  if sampling.filterLinear then [(0, 0), (1, 0), (0, 1), (1, 1)] else [(0, 0)]

/-- Modelled from the spec: strict sampling of the subset at local
coordinate `(lx, ly)` — every tap of the sampling footprint is resolved
into the subset rectangle by the clamp tile mode (the default, clamp-like
edge behavior of §4.1's `draw` contract) before the backing store is read;
the filtered taps are then combined. -/
def strictSample (img : SkSpecialImage) (sampling : SkSamplingOptions)
    (lx ly : Int) : Nat :=
  List.foldl (fun acc t =>
      acc + img.backing.pixels
        (clampI (lx + t.fst + img.fSubset.fLeft) img.fSubset.fLeft (img.fSubset.fRight - 1))
        (clampI (ly + t.snd + img.fSubset.fTop) img.fSubset.fTop (img.fSubset.fBottom - 1)))
    0 (taps sampling)

/-- Modelled from the spec: non-strict sampling reads the backing store
through the image view directly, with no boundary handling — taps beyond
the subset read adjacent backing-store pixels. -/
def fastSample (img : SkSpecialImage) (sampling : SkSamplingOptions)
    (lx ly : Int) : Nat :=
  List.foldl (fun acc t =>
      acc + img.backing.pixels
        (lx + t.fst + img.fSubset.fLeft)
        (ly + t.snd + img.fSubset.fTop))
    0 (taps sampling)

/-- Modelled from the spec: the body of
`SkSpecialImage::draw(canvas, x, y, sampling, paint, strict)` is not under
`src/`.  Per §4.1 it draws the subset content at destination offset
`(x, y)`: destination pixels covered by the subset's extent receive the
sampled image color (strict: subset-clamped sampling; non-strict: direct
reads through the image view), modulated by the paint when one is given;
pixels outside the destination rectangle are untouched.  The C++ `strict`
parameter defaults to `true`. -/
def draw (img : SkSpecialImage) (canvas : SkCanvas) (x y : Int)
    (sampling : SkSamplingOptions) (paint : Option SkPaint)
    (strict : Bool) : SkCanvas :=
  ⟨fun px py =>
    if x ≤ px ∧ px < x + img.width ∧ y ≤ py ∧ py < y + img.height then
      let c := if strict then img.strictSample sampling (px - x) (py - y)
               else img.fastSample sampling (px - x) (py - y)
      match paint with
      | some p => p.modulate c
      | none => c
    else canvas.pixels px py⟩

/-- `SkSpecialImage::draw(canvas, x, y)`, embedded from the header's
inline body: `this->draw(canvas, x, y, SkSamplingOptions(), nullptr);`,
taking the declaration's default `strict = true`. -/
def draw3 (img : SkSpecialImage) (canvas : SkCanvas) (x y : Int) : SkCanvas :=
  img.draw canvas x y defaultSampling none true

/-- Modelled from the spec: the default implementation of
`onAsShader(tileMode, sampling, lm, strict)` is not under `src/`.  Per the
header comment and §4.1, the non-strict branch builds a shader directly
from `asImage()` (no boundary handling), and the strict branch builds a
shader applying subset-aware tiled sampling over the image view; the
local matrix maps shader coordinates into the view's local frame. -/
def onAsShader (img : SkSpecialImage) (tm : SkTileMode)
    (_sampling : SkSamplingOptions) (lm : SkMatrix) (strict : Bool) :
    Int → Int → Nat :=
  fun x y =>
    let u := lm.mapX x y
    let v := lm.mapY x y
    let view := img.asImage
    if strict then
      match tm with
      | SkTileMode.decal =>
          if 0 ≤ u ∧ u < view.imgWidth ∧ 0 ≤ v ∧ v < view.imgHeight then
            view.pixelAt u v
          else 0
      | _ => view.pixelAt (tileCoord tm u view.imgWidth) (tileCoord tm v view.imgHeight)
    else view.pixelAt u v

/-- Modelled from the spec: `asShader(tileMode, sampling, lm)` — strict
sampling through `onAsShader`. -/
def asShader (img : SkSpecialImage) (tm : SkTileMode)
    (sampling : SkSamplingOptions) (lm : SkMatrix) : Int → Int → Nat :=
  img.onAsShader tm sampling lm true

/-- Modelled from the spec: `asShaderFast(sampling, lm)` — non-strict
sampling through `onAsShader` with the clamp-equivalent tile mode. -/
def asShaderFast (img : SkSpecialImage) (sampling : SkSamplingOptions)
    (lm : SkMatrix) : Int → Int → Nat :=
  img.onAsShader SkTileMode.clamp sampling lm false

/-- The containment invariant of §3: the stored subset is non-empty and
fully contained within the backing store's pixel bounds. -/
def valid (img : SkSpecialImage) : Prop :=
  img.backing.bounds.containsRect img.fSubset = true

/-- Pixel content of a special image in its local (subset-relative)
frame: local coordinate `(x, y)` denotes backing pixel
`(x + fSubset.fLeft, y + fSubset.fTop)`. -/
def contentAt (img : SkSpecialImage) (x y : Int) : Nat :=
  img.backing.pixels (x + img.fSubset.fLeft) (y + img.fSubset.fTop)

end SkSpecialImage

namespace SkSpecialImages

/-- Modelled from the spec: `MakeFromRaster(subset, sk_sp<SkImage>, props)`
is declared in the header but implemented elsewhere.  Per §4.2/§4.3 it
wraps the image's pixel storage zero-copy, restricted to `subset`; per
§7 construction fails (no object) for invalid or empty source data, and
the produced subset lies within the source's pixel bounds. -/
def MakeFromRaster (subsetR : SkIRect) (image : SkImage)
    (p : SkSurfaceProps) : Option SkSpecialImage :=
  if image.validPixels && image.bounds.containsRect subsetR then
    some { fSubset := subsetR
         , fUniqueID := 0
         , fColorInfo := ⟨0, 0, none⟩
         , fProps := p
         , backing := ⟨image.bounds, image.pixelAt, true⟩ }
  else none

/-- Modelled from the spec: `MakeFromRaster(subset, const SkBitmap&, props)`
— zero-copy wrap over caller-owned pixel storage, same failure policy. -/
def MakeFromRasterBitmap (subsetR : SkIRect) (bm : SkBitmap)
    (p : SkSurfaceProps) : Option SkSpecialImage :=
  if bm.validConfig && bm.bounds.containsRect subsetR then
    some { fSubset := subsetR
         , fUniqueID := 0
         , fColorInfo := ⟨0, 0, none⟩
         , fProps := p
         , backing := ⟨bm.bounds, bm.pixels, true⟩ }
  else none

/-- Modelled from the spec: `CopyFromRaster(subset, const SkBitmap&, props)`
is declared in the header but implemented elsewhere.  Per §4.3 it always
allocates fresh storage and copies the `subset` region of the source into
it; per §7 construction fails (no object) for invalid or empty source
data.  The copy's backing bounds start at the origin and the produced
subset is the whole copy. -/
def CopyFromRaster (subsetR : SkIRect) (bm : SkBitmap)
    (p : SkSurfaceProps) : Option SkSpecialImage :=
  if bm.validConfig && bm.bounds.containsRect subsetR then
    some { fSubset := SkIRect.makeWH subsetR.width subsetR.height
         , fUniqueID := 0
         , fColorInfo := ⟨0, 0, none⟩
         , fProps := p
         , backing :=
             ⟨SkIRect.makeWH subsetR.width subsetR.height
             , fun x y =>
                 if 0 ≤ x ∧ x < subsetR.width ∧ 0 ≤ y ∧ y < subsetR.height then
                   bm.pixels (x + subsetR.fLeft) (y + subsetR.fTop)
                 else 0
             , true⟩ }
  else none

/-- Modelled from the spec: `AsBitmap(img, outBitmap)` is declared in the
header but implemented elsewhere.  Per §4.3 it extracts a CPU-readable
pixel view of the special image's subset when the backing store permits
(raster: zero-copy; readable GPU texture: readback), returning `true`;
when extraction is impossible it returns `false` and leaves the output
parameter untouched.  The embedding returns the flag together with the
output parameter's final value; the view a success installs is the
special image's subset in local coordinates (`extractedView`). -/
def extractedView (img : SkSpecialImage) : SkBitmap :=
  { bounds := SkIRect.makeWH img.width img.height
  , pixels := fun x y => (img.asImage).pixelAt x y
  , validConfig := true }

def AsBitmap (img : SkSpecialImage) (out : SkBitmap) : Bool × SkBitmap :=
  if img.backing.readable then (true, extractedView img)
  else (false, out)

end SkSpecialImages

/-! ## Helper lemmas -/

theorem clampI_bounds (v lo hi : Int) (h : lo ≤ hi) :
    lo ≤ clampI v lo hi ∧ clampI v lo hi ≤ hi := by
  unfold clampI
  split
  · omega
  · split <;> omega

theorem containsPoint_clamp (s : SkIRect) (u v : Int)
    (hw : 0 < s.width) (hh : 0 < s.height) :
    s.containsPoint (clampI u s.fLeft (s.fRight - 1))
      (clampI v s.fTop (s.fBottom - 1)) = true := by
  have h1 := clampI_bounds u s.fLeft (s.fRight - 1)
    (by simp [SkIRect.width] at hw; omega)
  have h2 := clampI_bounds v s.fTop (s.fBottom - 1)
    (by simp [SkIRect.height] at hh; omega)
  simp only [SkIRect.containsPoint, Bool.and_eq_true, decide_eq_true_eq]
  omega

/-- Replacing backing pixels that only differ outside the subset does not
change the result of strict sampling, provided the subset is non-empty. -/
theorem strictSample_congr_outside (img : SkSpecialImage) (g : Int → Int → Nat)
    (sampling : SkSamplingOptions) (lx ly : Int)
    (hw : 0 < img.width) (hh : 0 < img.height)
    (hg : ∀ u v : Int, img.fSubset.containsPoint u v = true →
        g u v = img.backing.pixels u v) :
    SkSpecialImage.strictSample
        { img with backing := { img.backing with pixels := g } } sampling lx ly
      = img.strictSample sampling lx ly := by
  have key : ∀ a b : Int,
      g (clampI a img.fSubset.fLeft (img.fSubset.fRight - 1))
        (clampI b img.fSubset.fTop (img.fSubset.fBottom - 1))
      = img.backing.pixels (clampI a img.fSubset.fLeft (img.fSubset.fRight - 1))
          (clampI b img.fSubset.fTop (img.fSubset.fBottom - 1)) := by
    intro a b
    exact hg _ _ (containsPoint_clamp img.fSubset a b hw hh)
  rcases sampling with ⟨fl⟩
  cases fl <;>
    simp only [SkSpecialImage.strictSample, SkSpecialImage.taps, if_true, if_false,
      Bool.false_eq_true, List.foldl, key]

/-- A special image produced by `CopyFromRaster` satisfies the containment
invariant. -/
theorem copyFromRaster_some_valid (subR : SkIRect) (bm : SkBitmap)
    (p : SkSurfaceProps) (img : SkSpecialImage)
    (hs : SkSpecialImages.CopyFromRaster subR bm p = some img) :
    img.valid := by
  unfold SkSpecialImages.CopyFromRaster at hs
  split at hs
  case isTrue hc =>
    simp only [Option.some.injEq] at hs
    subst hs
    simp only [Bool.and_eq_true, SkIRect.containsRect, SkIRect.isEmpty,
      Bool.not_eq_true', Bool.or_eq_false_iff, decide_eq_false_iff_not,
      decide_eq_true_eq] at hc
    simp only [SkSpecialImage.valid, SkIRect.containsRect, SkIRect.isEmpty,
      SkIRect.makeWH, SkIRect.width, SkIRect.height, Bool.and_eq_true,
      Bool.not_eq_true', Bool.or_eq_false_iff, decide_eq_false_iff_not,
      decide_eq_true_eq]
    omega
  case isFalse => exact absurd hs (by simp)

/-- A special image produced by the image-wrapping `MakeFromRaster`
satisfies the containment invariant. -/
theorem makeFromRaster_some_valid (subR : SkIRect) (im : SkImage)
    (p : SkSurfaceProps) (img : SkSpecialImage)
    (hs : SkSpecialImages.MakeFromRaster subR im p = some img) :
    img.valid := by
  unfold SkSpecialImages.MakeFromRaster at hs
  split at hs
  case isTrue hc =>
    simp only [Option.some.injEq] at hs
    subst hs
    simp only [Bool.and_eq_true] at hc
    exact hc.2
  case isFalse => exact absurd hs (by simp)

/-- A special image produced by the bitmap-wrapping `MakeFromRaster`
satisfies the containment invariant. -/
theorem makeFromRasterBitmap_some_valid (subR : SkIRect) (bm : SkBitmap)
    (p : SkSurfaceProps) (img : SkSpecialImage)
    (hs : SkSpecialImages.MakeFromRasterBitmap subR bm p = some img) :
    img.valid := by
  unfold SkSpecialImages.MakeFromRasterBitmap at hs
  split at hs
  case isTrue hc =>
    simp only [Option.some.injEq] at hs
    subst hs
    simp only [Bool.and_eq_true] at hc
    exact hc.2
  case isFalse => exact absurd hs (by simp)

/-- `makeSubset` with a rectangle inside the current logical bounds
preserves the containment invariant. -/
theorem makeSubset_preserves_valid (img : SkSpecialImage) (r : SkIRect)
    (hv : img.valid)
    (hr : (SkIRect.makeWH img.width img.height).containsRect r = true) :
    (img.makeSubset r).valid := by
  simp only [SkSpecialImage.valid, SkSpecialImage.makeSubset,
    SkSpecialImage.onMakeSubset, SkSpecialImage.subset, SkSpecialImage.width,
    SkSpecialImage.height, SkIRect.makeOffset,
    SkIRect.topLeft, SkIRect.containsRect, SkIRect.isEmpty, SkIRect.makeWH,
    SkIRect.width, SkIRect.height, Bool.and_eq_true, Bool.not_eq_true',
    Bool.or_eq_false_iff, decide_eq_false_iff_not, decide_eq_true_eq] at *
  omega

/-! ## Concrete fixtures for witnesses -/

/-- A 4×4 backing-store bounds rectangle at the origin. -/
def cBounds : SkIRect := ⟨0, 0, 4, 4⟩

/-- A 2×2 subset strictly inside `cBounds`. -/
def cSubset : SkIRect := ⟨1, 1, 3, 3⟩

/-- A concrete pixel function with distinct values per coordinate. -/
def cPixels : Int → Int → Nat := fun x y => (x + 10 * y).toNat

/-- A readable (raster) backing store. -/
def cBacking : BackingStore := ⟨cBounds, cPixels, true⟩

/-- A concrete color descriptor. -/
def cInfo : SkColorInfo := ⟨0, 0, none⟩

/-- Concrete surface properties. -/
def cProps : SkSurfaceProps := ⟨0, 0⟩

/-- A concrete raster-backed special image: 2×2 subset of a 4×4 store. -/
def cImg : SkSpecialImage := ⟨cSubset, 7, cInfo, cProps, cBacking⟩

/-- A special image with the same subset as `cImg` but a different
backing store and identity. -/
def cImgB : SkSpecialImage := ⟨cSubset, 8, cInfo, cProps, ⟨⟨0, 0, 5, 5⟩, fun _ _ => 3, true⟩⟩

/-- A special image whose backing store cannot be read back. -/
def cBadImg : SkSpecialImage := ⟨cSubset, 9, cInfo, cProps, ⟨cBounds, cPixels, false⟩⟩

/-- A concrete source bitmap covering `cBounds`. -/
def cBitmap : SkBitmap := ⟨cBounds, cPixels, true⟩

/-- A concrete pre-existing output bitmap for `AsBitmap`. -/
def cOut : SkBitmap := ⟨⟨0, 0, 1, 1⟩, fun _ _ => 5, true⟩

/-- A concrete source image covering `cBounds`. -/
def cSkImage : SkImage := ⟨4, 4, cPixels, true⟩

/-- A rectangle within `cImg`'s local bounds. -/
def cR1 : SkIRect := ⟨0, 0, 2, 2⟩

/-- A rectangle within `cR1`'s local bounds. -/
def cR2 : SkIRect := ⟨1, 0, 2, 1⟩

/-- A degenerate (zero-width) rectangle. -/
def cEmptyR : SkIRect := ⟨2, 2, 2, 3⟩

/-- A concrete canvas. -/
def cCanvas : SkCanvas := ⟨fun _ _ => 0⟩

/-- The identity local matrix. -/
def cLM : SkMatrix := ⟨1, 0, 0, 0, 1, 0⟩

/-- A pixel function that agrees with `cPixels` inside `cSubset` and is
poisoned (99) outside it. -/
def cG : Int → Int → Nat := fun x y => if cSubset.containsPoint x y then cPixels x y else 99

/-! ## Claim theorems -/

/-- C1: for every special image and rectangle `r` in the image's local
(subset-relative) frame, `makeSubset r` translates `r` into the backing
store's frame by offsetting it with the origin (top-left corner) of the
current subset rectangle, and delegates exactly that absolute rectangle
to the variant-specific `onMakeSubset`. -/
theorem C1_makeSubset_translates_and_delegates (img : SkSpecialImage) (r : SkIRect) :
    img.makeSubset r =
      img.onMakeSubset
        ⟨r.fLeft + img.fSubset.fLeft, r.fTop + img.fSubset.fTop,
         r.fRight + img.fSubset.fLeft, r.fBottom + img.fSubset.fTop⟩ := rfl

/-- C5: every reachable special image satisfies the containment invariant:
images produced by any factory function are valid, and `makeSubset` with a
rectangle inside the current logical bounds preserves validity. -/
theorem C5_reachable_images_valid
    (subR : SkIRect) (im : SkImage) (bm : SkBitmap) (p : SkSurfaceProps)
    (imgF img : SkSpecialImage) (r : SkIRect)
    (hv : img.valid)
    (hr : (SkIRect.makeWH img.width img.height).containsRect r = true) :
    (SkSpecialImages.MakeFromRaster subR im p = some imgF → imgF.valid) ∧
    (SkSpecialImages.MakeFromRasterBitmap subR bm p = some imgF → imgF.valid) ∧
    (SkSpecialImages.CopyFromRaster subR bm p = some imgF → imgF.valid) ∧
    (img.makeSubset r).valid :=
  ⟨makeFromRaster_some_valid subR im p imgF,
   makeFromRasterBitmap_some_valid subR bm p imgF,
   copyFromRaster_some_valid subR bm p imgF,
   makeSubset_preserves_valid img r hv hr⟩

/-- C5 witness: the invariant holds at concrete inputs — a concrete image
is valid, a `CopyFromRaster` result is valid, and so is a concrete
in-range `makeSubset` of it. -/
theorem C5_reachable_images_valid_witness :
    cImg.valid ∧
    (SkIRect.makeWH cImg.width cImg.height).containsRect cR1 = true ∧
    ((SkSpecialImages.CopyFromRaster cSubset cBitmap cProps).getD cImg).valid ∧
    (cImg.makeSubset cR1).valid :=
  ⟨rfl, rfl,
   (C5_reachable_images_valid cSubset cSkImage cBitmap cProps
      ((SkSpecialImages.CopyFromRaster cSubset cBitmap cProps).getD cImg)
      cImg cR1 rfl rfl).2.2.1 rfl,
   (C5_reachable_images_valid cSubset cSkImage cBitmap cProps
      ((SkSpecialImages.CopyFromRaster cSubset cBitmap cProps).getD cImg)
      cImg cR1 rfl rfl).2.2.2⟩

/-- C6: `width`, `height`, `dimensions` and `subset` are pure functions of
the stored subset rectangle: they report the subset's dimensions, and two
images with the same stored subset report identical values regardless of
their backing stores. -/
theorem C6_accessors_from_subset (a b : SkSpecialImage)
    (h : a.fSubset = b.fSubset) :
    a.width = a.fSubset.width ∧ a.height = a.fSubset.height ∧
    a.dimensions = ⟨a.fSubset.width, a.fSubset.height⟩ ∧
    a.subset = a.fSubset ∧
    a.width = b.width ∧ a.height = b.height ∧
    a.dimensions = b.dimensions ∧ a.subset = b.subset := by
  simp [SkSpecialImage.width, SkSpecialImage.height, SkSpecialImage.dimensions,
    SkSpecialImage.subset, h]

/-- C6 witness: two concrete images sharing a subset but with different
backing stores (4×4 vs 5×5) report identical dimensions. -/
theorem C6_accessors_from_subset_witness :
    cImg.fSubset = cImgB.fSubset ∧
    cImg.dimensions = cImgB.dimensions ∧ cImg.width = cImgB.width :=
  ⟨rfl,
   (C6_accessors_from_subset cImg cImgB rfl).2.2.2.2.2.2.1,
   (C6_accessors_from_subset cImg cImgB rfl).2.2.2.2.1⟩

/-- C7: `CopyFromRaster` with a zero-width or zero-height source rectangle
returns no object, and whenever it does produce an object, that object
satisfies the containment invariant (never a partially-valid image). -/
theorem C7_copyFromRaster_rejects_empty
    (subR subR2 : SkIRect) (bm bm2 : SkBitmap) (p p2 : SkSurfaceProps)
    (img : SkSpecialImage)
    (hz : subR.width = 0 ∨ subR.height = 0)
    (hs : SkSpecialImages.CopyFromRaster subR2 bm2 p2 = some img) :
    SkSpecialImages.CopyFromRaster subR bm p = none ∧ img.valid := by
  constructor
  · unfold SkSpecialImages.CopyFromRaster
    split
    case isTrue hc =>
      exfalso
      simp only [Bool.and_eq_true, SkIRect.containsRect, SkIRect.isEmpty,
        Bool.not_eq_true', Bool.or_eq_false_iff, decide_eq_false_iff_not,
        decide_eq_true_eq] at hc
      simp only [SkIRect.width, SkIRect.height] at hz
      omega
    case isFalse => rfl
  · exact copyFromRaster_some_valid subR2 bm2 p2 img hs

/-- C7 witness: a concrete zero-width rectangle makes `CopyFromRaster`
return `none`, while a concrete non-empty copy is fully valid. -/
theorem C7_copyFromRaster_rejects_empty_witness :
    (cEmptyR.width = 0 ∨ cEmptyR.height = 0) ∧
    SkSpecialImages.CopyFromRaster cEmptyR cBitmap cProps = none ∧
    ((SkSpecialImages.CopyFromRaster cSubset cBitmap cProps).getD cImg).valid :=
  ⟨Or.inl rfl,
   (C7_copyFromRaster_rejects_empty cEmptyR cSubset cBitmap cBitmap cProps cProps
      ((SkSpecialImages.CopyFromRaster cSubset cBitmap cProps).getD cImg)
      (Or.inl rfl) rfl).1,
   (C7_copyFromRaster_rejects_empty cEmptyR cSubset cBitmap cBitmap cProps cProps
      ((SkSpecialImages.CopyFromRaster cSubset cBitmap cProps).getD cImg)
      (Or.inl rfl) rfl).2⟩

/-- C8: `AsBitmap` either returns `true` having installed the CPU-readable
view of the image's subset into the output, or returns `false` leaving the
output parameter exactly as it was — never a partial fill. -/
theorem C8_asBitmap_atomic (img : SkSpecialImage) (out : SkBitmap) :
    (SkSpecialImages.AsBitmap img out = (true, SkSpecialImages.extractedView img)
       ∧ img.backing.readable = true)
    ∨ (SkSpecialImages.AsBitmap img out = (false, out)
       ∧ img.backing.readable = false) := by
  unfold SkSpecialImages.AsBitmap
  cases hr : img.backing.readable
  · right
    simp [hr]
  · left
    simp [hr]

/-- C10: the three-argument convenience overload of `draw` is exactly the
full `draw` call with default-constructed sampling options, a null paint,
and strict sampling enabled. -/
theorem C10_draw3_is_strict_default (img : SkSpecialImage)
    (canvas : SkCanvas) (x y : Int) :
    img.draw3 canvas x y = img.draw canvas x y defaultSampling none true := rfl

/-- C2: drawing with `strict = true` never reads a backing-store pixel
outside the subset: if every backing pixel inside the subset is unchanged,
the strict-drawn output is unchanged at every destination pixel, for every
destination offset, sampling option and paint — pixels outside the subset
cannot influence the result. -/
theorem C2_strict_draw_reads_only_subset
    (img : SkSpecialImage) (g : Int → Int → Nat) (canvas : SkCanvas)
    (x y px py : Int) (sampling : SkSamplingOptions) (paint : Option SkPaint)
    (hv : img.valid)
    (hg : ∀ u v : Int, img.fSubset.containsPoint u v = true →
        g u v = img.backing.pixels u v) :
    (SkSpecialImage.draw { img with backing := { img.backing with pixels := g } }
        canvas x y sampling paint true).pixels px py
      = (img.draw canvas x y sampling paint true).pixels px py := by
  simp only [SkSpecialImage.draw, SkSpecialImage.width, SkSpecialImage.height]
  by_cases h : x ≤ px ∧ px < x + img.fSubset.width ∧ y ≤ py ∧ py < y + img.fSubset.height
  · rw [if_pos h, if_pos h]
    have hw : 0 < img.width := by
      simp only [SkSpecialImage.width]
      omega
    have hh : 0 < img.height := by
      simp only [SkSpecialImage.height]
      omega
    have hs := strictSample_congr_outside img g sampling (px - x) (py - y) hw hh hg
    cases paint with
    | none => simpa using hs
    | some pp => simp only [if_true, hs]
  · rw [if_neg h, if_neg h]

/-- C2 witness: a concrete backing whose pixels are poisoned outside the
subset yields the same strict-drawn output at a concrete destination
pixel. -/
theorem C2_strict_draw_reads_only_subset_witness :
    cImg.valid ∧
    (SkSpecialImage.draw { cImg with backing := { cImg.backing with pixels := cG } }
        cCanvas 0 0 defaultSampling none true).pixels 1 1
      = (cImg.draw cCanvas 0 0 defaultSampling none true).pixels 1 1 :=
  ⟨rfl,
   C2_strict_draw_reads_only_subset cImg cG cCanvas 0 0 1 1 defaultSampling none
     rfl
     (fun u v h => by
       show (if cSubset.containsPoint u v = true then cPixels u v else 99)
           = cPixels u v
       rw [if_pos (show cSubset.containsPoint u v = true from h)])⟩

/-- C3: subset extraction composes under coordinate translation: taking
subset `r1` and then `r2` (each rectangle expressed in the frame of the
image it is taken from, both in bounds) selects the same absolute subset
rectangle, over the same backing store, as the single subset
`r2.makeOffset r1.topLeft`, so the pixel content coincides everywhere. -/
theorem C3_makeSubset_composition
    (img : SkSpecialImage) (r1 r2 : SkIRect) (x y : Int)
    (h1 : (SkIRect.makeWH img.width img.height).containsRect r1 = true)
    (h2 : (SkIRect.makeWH r1.width r1.height).containsRect r2 = true) :
    ((img.makeSubset r1).makeSubset r2).fSubset
        = (img.makeSubset (r2.makeOffset r1.topLeft)).fSubset
    ∧ ((img.makeSubset r1).makeSubset r2).contentAt x y
        = (img.makeSubset (r2.makeOffset r1.topLeft)).contentAt x y := by
  constructor
  · simp only [SkSpecialImage.makeSubset, SkSpecialImage.onMakeSubset,
      SkSpecialImage.subset, SkIRect.makeOffset, SkIRect.topLeft,
      SkIRect.mk.injEq]
    refine ⟨by ring, by ring, by ring, by ring⟩
  · simp only [SkSpecialImage.contentAt, SkSpecialImage.makeSubset,
      SkSpecialImage.onMakeSubset, SkSpecialImage.subset, SkIRect.makeOffset,
      SkIRect.topLeft]
    congr 2 <;> ring

/-- C3 witness: composition holds at a concrete image and concrete
in-range rectangles, including at a concrete content coordinate. -/
theorem C3_makeSubset_composition_witness :
    (SkIRect.makeWH cImg.width cImg.height).containsRect cR1 = true ∧
    (SkIRect.makeWH cR1.width cR1.height).containsRect cR2 = true ∧
    ((cImg.makeSubset cR1).makeSubset cR2).fSubset
        = (cImg.makeSubset (cR2.makeOffset cR1.topLeft)).fSubset ∧
    ((cImg.makeSubset cR1).makeSubset cR2).contentAt 0 0
        = (cImg.makeSubset (cR2.makeOffset cR1.topLeft)).contentAt 0 0 :=
  ⟨rfl, rfl,
   (C3_makeSubset_composition cImg cR1 cR2 0 0 rfl rfl).1,
   (C3_makeSubset_composition cImg cR1 cR2 0 0 rfl rfl).2⟩

/-- C4: the shader from `asShaderFast` and the strict shader from
`asShader` with the clamp tile mode evaluate to the same color at every
coordinate the local matrix maps strictly inside the subset's local
bounds. -/
theorem C4_shaderFast_matches_strict_clamp_inside
    (img : SkSpecialImage) (sampling : SkSamplingOptions) (lm : SkMatrix)
    (x y : Int)
    (hx : 0 ≤ lm.mapX x y ∧ lm.mapX x y < img.width)
    (hy : 0 ≤ lm.mapY x y ∧ lm.mapY x y < img.height) :
    img.asShaderFast sampling lm x y
      = img.asShader SkTileMode.clamp sampling lm x y := by
  have hu : clampI (lm.mapX x y) 0 (img.width - 1) = lm.mapX x y := by
    unfold clampI
    split
    · omega
    · split
      · omega
      · rfl
  have hv : clampI (lm.mapY x y) 0 (img.height - 1) = lm.mapY x y := by
    unfold clampI
    split
    · omega
    · split
      · omega
      · rfl
  simp only [SkSpecialImage.asShaderFast, SkSpecialImage.asShader,
    SkSpecialImage.onAsShader, SkSpecialImage.asImage, tileCoord,
    if_true, Bool.false_eq_true, if_false, hu, hv]

/-- C4 witness: the two shaders agree at a concrete coordinate inside a
concrete image's subset, under the identity local matrix. -/
theorem C4_shaderFast_matches_strict_clamp_inside_witness :
    (0 ≤ cLM.mapX 1 0 ∧ cLM.mapX 1 0 < cImg.width) ∧
    (0 ≤ cLM.mapY 1 0 ∧ cLM.mapY 1 0 < cImg.height) ∧
    cImg.asShaderFast defaultSampling cLM 1 0
      = cImg.asShader SkTileMode.clamp defaultSampling cLM 1 0 :=
  ⟨by constructor <;> decide, by constructor <;> decide,
   C4_shaderFast_matches_strict_clamp_inside cImg defaultSampling cLM 1 0
     (by constructor <;> decide) (by constructor <;> decide)⟩

/-- C9: round trip — extracting pixels with `AsBitmap` from the image
produced by `CopyFromRaster subR bm p` succeeds and yields, at every
in-bounds coordinate of the copied region, exactly the pixel of `bm` at
the corresponding coordinate of `subR` (bit-identical crop). -/
theorem C9_copy_roundtrip
    (subR : SkIRect) (bm : SkBitmap) (p : SkSurfaceProps) (out : SkBitmap)
    (img : SkSpecialImage) (x y : Int)
    (hs : SkSpecialImages.CopyFromRaster subR bm p = some img)
    (hx : 0 ≤ x ∧ x < subR.width) (hy : 0 ≤ y ∧ y < subR.height) :
    (SkSpecialImages.AsBitmap img out).fst = true ∧
    ((SkSpecialImages.AsBitmap img out).snd).pixels x y
      = bm.pixels (x + subR.fLeft) (y + subR.fTop) := by
  unfold SkSpecialImages.CopyFromRaster at hs
  split at hs
  case isTrue hc =>
    simp only [Option.some.injEq] at hs
    subst hs
    constructor
    · simp [SkSpecialImages.AsBitmap]
    · simp only [SkSpecialImages.AsBitmap, SkSpecialImages.extractedView,
        SkSpecialImage.asImage, SkIRect.makeWH, if_true, add_zero]
      rw [if_pos ⟨hx.1, hx.2, hy.1, hy.2⟩]
  case isFalse => exact absurd hs (by simp)

/-- C9 witness: the round trip is bit-exact at a concrete bitmap, subset
and coordinate. -/
theorem C9_copy_roundtrip_witness :
    ((0 : Int) ≤ 0 ∧ (0 : Int) < cSubset.width) ∧
    ((0 : Int) ≤ 1 ∧ (1 : Int) < cSubset.height) ∧
    (SkSpecialImages.AsBitmap
        ((SkSpecialImages.CopyFromRaster cSubset cBitmap cProps).getD cImg)
        cOut).fst = true ∧
    (SkSpecialImages.AsBitmap
        ((SkSpecialImages.CopyFromRaster cSubset cBitmap cProps).getD cImg)
        cOut).snd.pixels 0 1
      = cBitmap.pixels (0 + cSubset.fLeft) (1 + cSubset.fTop) :=
  ⟨by constructor <;> decide, by constructor <;> decide,
   (C9_copy_roundtrip cSubset cBitmap cProps cOut
      ((SkSpecialImages.CopyFromRaster cSubset cBitmap cProps).getD cImg) 0 1
      rfl (by constructor <;> decide) (by constructor <;> decide)).1,
   (C9_copy_roundtrip cSubset cBitmap cProps cOut
      ((SkSpecialImages.CopyFromRaster cSubset cBitmap cProps).getD cImg) 0 1
      rfl (by constructor <;> decide) (by constructor <;> decide)).2⟩
